import Mathlib

/-!
Shallow embedding of `parser/parser.go` from the xc repository: a streaming,
single-pass parser extracting task records from a markdown-like document.

The Go parser reads lines through a `bufio.Scanner`; here the not-yet-buffered
part of the stream is a `List String`.  Machine state (current/next line,
exhaustion flag, accumulated tasks, the task under construction) is passed
explicitly.  All loops are fueled: the Go code can genuinely diverge (for
example when the final line of input is a recognized attribute line, `scan`
becomes a no-op and `parseTaskBody` re-reads the same line forever), so the
fueled functions return `none` when the iteration budget is exhausted.
-/

namespace Xc

/-- Go `unicode.IsSpace`: the Unicode White_Space property, mirroring Go's
implementation shape — a Latin-1 fast path for tab, LF, VT, FF, CR, space,
NEL (U+0085) and NBSP (U+00A0), then the remaining White_Space code points:
Ogham space mark (U+1680), the U+2000–U+200A spaces, line and paragraph
separators (U+2028, U+2029), narrow no-break space (U+202F), medium
mathematical space (U+205F) and ideographic space (U+3000). -/
def isSpaceChar (c : Char) : Bool :=
  let n := c.toNat
  if n ≤ 0xFF then
    n == 0x09 || n == 0x0A || n == 0x0B || n == 0x0C || n == 0x0D ||
    n == 0x20 || n == 0x85 || n == 0xA0
  else
    n == 0x1680 || (decide (0x2000 ≤ n) && decide (n ≤ 0x200A)) ||
    n == 0x2028 || n == 0x2029 || n == 0x202F || n == 0x205F || n == 0x3000

/-- Go `trimValues = "_*` "`: underscore, asterisk, backtick, space
(`Char.ofNat 96` is the backtick). -/
def trimValueChars : List Char := ['_', '*', Char.ofNat 96, ' ']

/-- Drop characters satisfying `p` from both ends of a character list. -/
def trimByP (p : Char → Bool) (l : List Char) : List Char :=
  ((l.dropWhile p).reverse.dropWhile p).reverse

/-- Go `strings.TrimSpace`. -/
def trimSpace (s : String) : String := ⟨trimByP isSpaceChar s.data⟩

/-- Go `strings.Trim(s, trimValues)`. -/
def trimVals (s : String) : String := ⟨trimByP (trimValueChars.contains ·) s.data⟩

/-- Go `strings.ToLower` (ASCII fragment). -/
def toLowerStr (s : String) : String := ⟨s.data.map Char.toLower⟩

/-- Splitter for Go `strings.Fields`: maximal runs of non-space characters. -/
def fieldsAux : List Char → List Char → List (List Char)
  | [], acc => if acc.isEmpty then [] else [acc.reverse]
  | c :: cs, acc =>
    if isSpaceChar c then
      if acc.isEmpty then fieldsAux cs [] else acc.reverse :: fieldsAux cs []
    else fieldsAux cs (c :: acc)

/-- Go `strings.Fields`. -/
def fields (s : String) : List String := (fieldsAux s.data []).map (fun l => ⟨l⟩)

/-- Number of occurrences of character `c` in `s`
(Go `strings.Count(s, string(c))` for a one-character pattern). -/
def countChar (s : String) (c : Char) : Nat := (s.data.filter (· == c)).length

/-- Go `stringOnlyContains`: the string is non-empty and every rune equals
`matcher`. -/
def stringOnlyContains (input : String) (matcher : Char) : Bool :=
  !input.data.isEmpty && input.data.all (· == matcher)

/-- Splitter for Go `strings.Cut(s, ":")`: split at the first colon. -/
def cutColonAux : List Char → Option (List Char × List Char)
  | [] => none
  | c :: cs =>
    if c == ':' then some ([], cs)
    else (cutColonAux cs).map (fun pr => (c :: pr.1, pr.2))

/-- Go `strings.Cut(s, ":")`; `none` when no colon occurs. -/
def cutColon (s : String) : Option (String × String) :=
  (cutColonAux s.data).map (fun pr => (⟨pr.1⟩, ⟨pr.2⟩))

/-- Splitter for Go `strings.Split(s, ",")`; empty pieces are kept and the
empty string yields one empty piece. -/
def splitCommaAux : List Char → List Char → List (List Char)
  | [], acc => [acc.reverse]
  | c :: cs, acc =>
    if c == ',' then acc.reverse :: splitCommaAux cs [] else splitCommaAux cs (c :: acc)

/-- Go `strings.Split(s, ",")`. -/
def splitComma (s : String) : List String := (splitCommaAux s.data []).map (fun l => ⟨l⟩)

/-- Go `strings.Join(l, " ")`. -/
def joinSpace (l : List String) : String := String.intercalate " " l

/-- One parsed task; the fields of `models.Task` touched by the parser, with
Go zero values as defaults. -/
structure Task where
  Name : String := ""
  Description : List String := []
  Script : String := ""
  Env : List String := []
  Dir : String := ""
  DependsOn : List String := []
  Inputs : List String := []
deriving DecidableEq

/-- The fatal errors the parser produces.  `readFailure` stands for
`fmt.Errorf("failed to read file: %w", p.scanner.Err())`: in this pure model
the stream never reports a read error, so the wrapped error is always Go
`nil`, yet the surrounding error value itself is non-nil and is returned. -/
inductive ParseErr where
  | noTasksHeading
  | readFailure
  | duplicateDirectory (task : String)
  | duplicateCodeBlock (task : String)
  | unterminatedCodeBlock (task : String)
  | emptyTask (task : String)
deriving DecidableEq

/-- The parser state: remaining unbuffered input lines, accumulated tasks,
task under construction, root heading level, the two buffered lines and the
exhaustion flag (Go struct `parser`). -/
structure ParserState where
  input : List String
  tasks : List Task
  currTask : Task
  rootHeadingLevel : Nat
  nextLine : String
  currentLine : String
  reachedEnd : Bool
deriving DecidableEq

/-- Go `(*parser).scan`: shift `nextLine` into `currentLine` and pull one more
line from the stream into `nextLine`; on stream exhaustion set the flag but
still report `true` once (`nextLine` keeps its stale value). -/
def scan (p : ParserState) : Bool × ParserState :=
  if p.reachedEnd then (false, p)
  else
    match p.input with
    | [] => (true, { p with currentLine := p.nextLine, reachedEnd := true })
    | l :: rest =>
      (true, { p with currentLine := p.nextLine, nextLine := l, input := rest })

/-- Go `(*parser).parseAltHeading`: underline-style heading over
`currentLine`/`nextLine`; all `-` is level 2, all `=` is level 1; when
matched and `advance` is set, two `scan` steps are taken. -/
def parseAltHeading (p : ParserState) (advance : Bool) :
    (Bool × Nat × String) × ParserState :=
  let t := trimSpace p.currentLine
  let n := trimSpace p.nextLine
  let r :=
    if stringOnlyContains n '-' then (true, 2, t)
    else if stringOnlyContains n '=' then (true, 1, t)
    else (false, 0, "")
  if !advance || !r.1 then (r, p)
  else (r, (scan (scan p).2).2)

/-- Go `(*parser).parseHeading`: try the underline form first, then the
marker (ATX) form on `currentLine`: at least two whitespace-separated
fields, the first consisting solely of `#`; its length is the level and the
rest rejoined with single spaces is the text.  When matched and `advance`
is set, one `scan` step is taken (the underline form has already taken its
own two). -/
def parseHeading (p : ParserState) (advance : Bool) :
    (Bool × Nat × String) × ParserState :=
  let alt := parseAltHeading p advance
  if alt.1.1 then alt
  else
    let t := trimSpace p.currentLine
    let s := fields t
    if s.length < 2 || (s.headD "").length < 1 ||
        countChar (s.headD "") '#' != (s.headD "").length then
      ((false, 0, ""), p)
    else
      let level := (s.headD "").length
      let text := joinSpace (s.drop 1)
      if !advance then ((true, level, text), p)
      else ((true, level, text), (scan p).2)

/-- The canonical attribute kinds (Go `AttributeType`). -/
inductive AttributeType where
  | env | dir | req | inp
deriving DecidableEq

/-- Go `attMap`: surface attribute names to canonical kinds. -/
def attMap (s : String) : Option AttributeType :=
  if s == "req" || s == "requires" then some .req
  else if s == "env" || s == "environment" then some .env
  else if s == "dir" || s == "directory" then some .dir
  else if s == "inputs" then some .inp
  else none

/-- Go `(*parser).parseAttribute`: split `currentLine` at the first colon,
normalize the key (trim decorations, lower-case) and look it up; list-valued
kinds split the rest on commas, trim each piece and append (empty pieces
included); `dir` is single-assignment — a second assignment while `Dir` is
non-empty is a fatal error and consumes nothing.  On a match one `scan` step
is taken (its result is ignored). -/
def parseAttribute (p : ParserState) : (Bool × Option ParseErr) × ParserState :=
  match cutColon p.currentLine with
  | none => ((false, none), p)
  | some (a, rest) =>
    match attMap (toLowerStr (trimVals a)) with
    | none => ((false, none), p)
    | some .inp =>
      let p1 := { p with currTask :=
        { p.currTask with Inputs := p.currTask.Inputs ++ (splitComma rest).map trimVals } }
      ((true, none), (scan p1).2)
    | some .req =>
      let p1 := { p with currTask :=
        { p.currTask with DependsOn := p.currTask.DependsOn ++ (splitComma rest).map trimVals } }
      ((true, none), (scan p1).2)
    | some .env =>
      let p1 := { p with currTask :=
        { p.currTask with Env := p.currTask.Env ++ (splitComma rest).map trimVals } }
      ((true, none), (scan p1).2)
    | some .dir =>
      if p.currTask.Dir != "" then
        ((false, some (.duplicateDirectory p.currTask.Name)), p)
      else
        let p1 := { p with currTask := { p.currTask with Dir := trimVals rest } }
        ((true, none), (scan p1).2)

/-- A line whose first three characters are backticks (Go
`len(t) >= 3 && t[:3] == "` ``"`, backticks). -/
def isFence (s : String) : Bool :=
  s.data.take 3 == [Char.ofNat 96, Char.ofNat 96, Char.ofNat 96]

/-- The `for p.scan()` loop of Go `(*parser).parseCodeBlock`: read lines until
a closing fence; non-blank lines are appended to the script with a trailing
newline, blank lines are dropped.  Returns the `ended` flag. -/
def codeLoop (fuel : Nat) (p : ParserState) : Option (Bool × ParserState) :=
  match fuel with
  | 0 => none
  | fuel + 1 =>
    match scan p with
    | (false, p1) => some (false, p1)
    | (true, p1) =>
      if isFence p1.currentLine then some (true, p1)
      else
        let p2 :=
          if trimSpace p1.currentLine != "" then
            { p1 with currTask :=
              { p1.currTask with Script := p1.currTask.Script ++ p1.currentLine ++ "\n" } }
          else p1
        codeLoop fuel p2

/-- Go `(*parser).parseCodeBlock`: no fence on `currentLine` means not a code
block (no error, nothing consumed); a fence while `Script` is already
non-empty is the duplicate-block fatal error; otherwise run the capture loop,
fail if the block never ended, and on success take one more `scan` step past
the closing fence. -/
def parseCodeBlock (fuel : Nat) (p : ParserState) :
    Option (Option ParseErr × ParserState) :=
  if !isFence p.currentLine then some (none, p)
  else if p.currTask.Script != "" then
    some (some (.duplicateCodeBlock p.currTask.Name), p)
  else
    match codeLoop fuel p with
    | none => none
    | some (false, p1) => some (some (.unterminatedCodeBlock p1.currTask.Name), p1)
    | some (true, p1) => some (none, (scan p1).2)

/-- Outcome of Go `(*parser).findTaskHeading`. -/
inductive FindResult where
  | found (heading : String)
  | sectionDone
  | fail (e : ParseErr)
deriving DecidableEq

/-- Go `(*parser).findTaskHeading`: consume headings until one at level
`rootHeadingLevel+1` (a task: its decoration-trimmed text is returned) or at
level `≤ rootHeadingLevel` (section done).  A non-heading line, or a heading
deeper than `rootHeadingLevel+1` (which `parseHeading` has then already
consumed), is followed by one further `scan`; if that `scan` reports
exhaustion the wrapped read error is returned. -/
def findTaskHeading (fuel : Nat) (p : ParserState) :
    Option (FindResult × ParserState) :=
  match fuel with
  | 0 => none
  | fuel + 1 =>
    let ((tok, level, text), p1) := parseHeading p true
    if !tok || level > p1.rootHeadingLevel + 1 then
      match scan p1 with
      | (false, p2) => some (.fail .readFailure, p2)
      | (true, p2) => findTaskHeading fuel p2
    else if level ≤ p1.rootHeadingLevel then some (.sectionDone, p1)
    else some (.found (trimVals text), p1)

/-- Go `(*parser).parseTaskBody`: repeatedly try an attribute, then a code
block, then peek a heading on `currentLine` (level `≤ root` ends body and
section; level `root+1` ends body, next task begins); otherwise a non-blank
`currentLine` is appended (decoration-trimmed) to the description and one
`scan` step taken; exhaustion ends the body. -/
def parseTaskBody (fuel : Nat) (p : ParserState) :
    Option ((Bool × Option ParseErr) × ParserState) :=
  match fuel with
  | 0 => none
  | fuel + 1 =>
    match parseAttribute p with
    | ((true, _), p1) => parseTaskBody fuel p1
    | ((false, some e), p1) => some ((false, some e), p1)
    | ((false, none), p1) =>
      match parseCodeBlock fuel p1 with
      | none => none
      | some (some e, p2) => some ((false, some e), p2)
      | some (none, p2) =>
        let ((tok, level, _), p3) := parseHeading p2 false
        if tok && decide (level ≤ p3.rootHeadingLevel) then some ((false, none), p3)
        else if tok && decide (level = p3.rootHeadingLevel + 1) then some ((true, none), p3)
        else
          let p4 :=
            if trimSpace p3.currentLine != "" then
              { p3 with currTask :=
                { p3.currTask with Description := p3.currTask.Description ++ [trimVals p3.currentLine] } }
            else p3
          match scan p4 with
          | (false, p5) => some ((false, none), p5)
          | (true, p5) => parseTaskBody fuel p5

/-- Go `(*parser).parseTask`: reset the task under construction, locate the
next task heading, run the body, then validate — a task with empty `Script`
and empty `DependsOn` is the fatal empty-task error; otherwise it is appended
to the task list. -/
def parseTask (fuel : Nat) (p : ParserState) :
    Option ((Bool × Option ParseErr) × ParserState) :=
  let p0 := { p with currTask := {} }
  match findTaskHeading fuel p0 with
  | none => none
  | some (.fail e, p1) => some ((false, some e), p1)
  | some (.sectionDone, p1) => some ((false, none), p1)
  | some (.found h, p1) =>
    let p2 := { p1 with currTask := { p1.currTask with Name := h } }
    match parseTaskBody fuel p2 with
    | none => none
    | some ((ok, some e), p3) => some ((ok, some e), p3)
    | some ((ok, none), p3) =>
      if p3.currTask.Script = "" ∧ p3.currTask.DependsOn = [] then
        some ((ok, some (.emptyTask p3.currTask.Name)), p3)
      else
        some ((ok, none), { p3 with tasks := p3.tasks ++ [p3.currTask] })

/-- The loop of Go `(*parser).Parse`: run `parseTask` until it reports an
error or no further task; the final state and the error are returned. -/
def ParseLoop (fuel : Nat) (p : ParserState) :
    Option (ParserState × Option ParseErr) :=
  match fuel with
  | 0 => none
  | fuel + 1 =>
    match parseTask fuel p with
    | none => none
    | some ((_, some e), p1) => some (p1, some e)
    | some ((false, none), p1) => some (p1, none)
    | some ((true, none), p1) => ParseLoop fuel p1

/-- Go `(*parser).Parse`: the accumulated task list of the final state is
returned in every case, alongside the error (if any). -/
def Parse (fuel : Nat) (p : ParserState) : Option (List Task × Option ParseErr) :=
  (ParseLoop fuel p).map (fun r => (r.1.tasks, r.2))

/-- The loop of Go `NewParser`: `scan`, try to read a heading (consuming it),
and stop when its trimmed text case-insensitively equals the target; stream
exhaustion is the no-tasks-heading error. -/
def NewParserLoop (fuel : Nat) (heading : String) (p : ParserState) :
    Option (Except ParseErr ParserState) :=
  match fuel with
  | 0 => none
  | fuel + 1 =>
    match scan p with
    | (false, _) => some (.error .noTasksHeading)
    | (true, p1) =>
      let ((ok, level, text), p2) := parseHeading p1 true
      if !ok || toLowerStr (trimSpace text) != toLowerStr (trimSpace heading) then
        NewParserLoop fuel heading p2
      else
        some (.ok { p2 with rootHeadingLevel := level })

/-- The zero-valued parser over a list of input lines (Go `NewParser` before
its loop: `bufio.NewScanner(r)` plus zero values). -/
def initState (lines : List String) : ParserState :=
  { input := lines, tasks := [], currTask := {}, rootHeadingLevel := 0,
    nextLine := "", currentLine := "", reachedEnd := false }

/-- `NewParser` followed by `Parse` on a list of lines: the whole contract of
the parsing core.  `none` means the fuel ran out (in particular on the inputs
where the Go code diverges). -/
def parseLines (fuel : Nat) (lines : List String) (heading : String) :
    Option (List Task × Option ParseErr) :=
  match NewParserLoop fuel heading (initState lines) with
  | none => none
  | some (.error e) => some ([], some e)
  | some (.ok p) => Parse fuel p

/-- Drop one trailing carriage return (Go `bufio.ScanLines`). -/
def stripCR (s : String) : String :=
  match s.data.getLast? with
  | some c => if c == '\r' then ⟨s.data.dropLast⟩ else s
  | none => s

/-- Splitter on newlines, keeping empty pieces. -/
def splitNLAux : List Char → List Char → List (List Char)
  | [], acc => [acc.reverse]
  | c :: cs, acc =>
    if c == '\n' then acc.reverse :: splitNLAux cs [] else splitNLAux cs (c :: acc)

/-- The line sequence `bufio.Scanner` with `ScanLines` produces from a raw
document: split on newlines, drop the empty piece a trailing newline leaves
behind (an empty document yields no lines), strip one trailing `\r` per
line. -/
def toLines (doc : String) : List String :=
  let parts := (splitNLAux doc.data []).map (fun l => (⟨l⟩ : String))
  let parts := if parts.getLast? == some "" then parts.dropLast else parts
  parts.map stripCR

/-- Fuel that covers every loop of a terminating parse: each loop advances the
cursor at least once per iteration (except a bounded number of boundary
steps), so `lines.length + 8` iterations per loop suffice. -/
def defaultFuel (lines : List String) : Nat := lines.length + 8

/-- Parse a raw document against a target section heading. -/
def parseDoc (doc : String) (heading : String) :
    Option (List Task × Option ParseErr) :=
  parseLines (defaultFuel (toLines doc)) (toLines doc) heading

/-- The script text a captured block contributes: its non-blank lines, each
with a trailing newline, concatenated in order. -/
def scriptOf (blockLines : List String) : String :=
  String.join ((blockLines.filter (fun l => trimSpace l != "")).map (· ++ "\n"))

/-- The §8 example document of the spec. -/
def exampleDoc : String := "# Tasks\n## build\nreq: test\n\n```\necho hi\n```\n"

/-- The task the parser actually produces for `exampleDoc`: the closing fence
line is left as `currentLine` by the end-of-input no-op `scan`, and the body
loop appends its decoration-trimmed text — the empty string — to the
description. -/
def exampleTask : Task :=
  { Name := "build", Description := [""], Script := "echo hi\n", DependsOn := ["test"] }

/-- A document whose first task is well-formed and whose second task is
empty (fatal validation error). -/
def partialDoc : String := "# Tasks\n## a\nreq: x\n## b\njunk\nend\n"

/-- The first task of `partialDoc`, completed before the fatal error. -/
def partialTask : Task := { Name := "a", DependsOn := ["x"] }

/-- A document whose task heading text `_` trims to the empty string. -/
def emptyNameDoc : String := "# Tasks\n## _\nreq: x\nend\n"

/-- The empty-named task `emptyNameDoc` produces. -/
def emptyNameTask : Task := { Name := "", Description := ["end"], DependsOn := ["x"] }

/-- A document that simply ends (no read error) while the parser is still
searching for a task heading. -/
def eofSearchDoc : String := "# Tasks\njunk\n"

/-- A document with two recognized `dir:` attribute lines in one task, the
first with an empty value. -/
def twoDirDoc : String := "# Tasks\n## a\ndir:\ndir: x\nreq: y\nend\n"

/-- The task `twoDirDoc` produces — no duplicate-directory error. -/
def twoDirTask : Task :=
  { Name := "a", Description := ["end"], Dir := "x", DependsOn := ["y"] }

/-- A document where a second fenced block is opened after a first all-blank
block was parsed for the same task. -/
def twoBlockDoc : String := "# Tasks\n## a\n```\n\n```\nx\n```\necho hi\n```\nend\n"

/-- The task `twoBlockDoc` produces — the second block is captured with no
duplicate-block error. -/
def twoBlockTask : Task :=
  { Name := "a", Description := ["x", "end"], Script := "echo hi\n" }

/-- A document whose only task heading immediately follows a deeper (level 3)
heading inside the section. -/
def deepSkipDoc : String := "# Tasks\n### deep\n## build\nreq: x\nend\n"

/-- `deepSkipDoc` with the marker task heading replaced by its underline
form — the substitution instance of the interchangeability claim. -/
def deepSkipDocAlt : String := "# Tasks\n### deep\nbuild\n----\nreq: x\nend\n"

/-- A document whose only task heading immediately follows a non-heading
line. -/
def junkSkipDoc : String := "# Tasks\njunk\n## build\nreq: x\nend\n"

/-- The task `junkSkipDoc` produces. -/
def junkSkipTask : Task := { Name := "build", Description := ["end"], DependsOn := ["x"] }

/-- The marker-heading side of the interchangeability counterexample: the
task heading follows a deeper heading, and the body starts with a line of
dashes. -/
def ceMarkerDoc : String := "# Tasks\n### d\n## build\n----\nreq: a\nx\n"

/-- The underline-heading side of the interchangeability counterexample. -/
def ceUnderlineDoc : String := "# Tasks\n### d\nbuild\n----\n----\nreq: a\nx\n"

/-- The task `ceUnderlineDoc` produces (the marker side instead fails). -/
def ceUnderlineTask : Task := { Name := "----", Description := ["x"], DependsOn := ["a"] }

/-- A parser state about to read a second, identical `dir:` attribute. -/
def dupDirState : ParserState :=
  { input := ["req: z"], tasks := [], currTask := { Name := "t", Dir := "x" },
    rootHeadingLevel := 1, nextLine := "next", currentLine := "dir: x",
    reachedEnd := false }

/-- A parser state about to open a fenced block while the task's script is
already non-empty. -/
def dupBlockState : ParserState :=
  { input := ["echo", "```"], tasks := [], currTask := { Name := "t", Script := "x\n" },
    rootHeadingLevel := 1, nextLine := "echo", currentLine := "```",
    reachedEnd := false }

/-- A parser state whose current line opens a fenced block with blank lines
inside: stream ahead is `a`, an empty line, a line holding a single no-break
space (U+00A0, blank to Go `strings.TrimSpace`), `b`, closing fence, `z`. -/
def blockState : ParserState :=
  { input := ["", "\u00A0", "b", "```", "z"], tasks := [], currTask := { Name := "t" },
    rootHeadingLevel := 1, nextLine := "a", currentLine := "```",
    reachedEnd := false }

/-- A parser state in task search whose current line is a non-heading line,
with a task heading on the very next line. -/
def junkState : ParserState :=
  { input := ["req: x", "end"], tasks := [], currTask := {},
    rootHeadingLevel := 1, nextLine := "## b", currentLine := "junk",
    reachedEnd := false }

/-- A parser state in task search whose current line is a level-3 heading,
with a task heading on the very next line. -/
def deepState : ParserState :=
  { input := ["req: x", "end"], tasks := [], currTask := {},
    rootHeadingLevel := 1, nextLine := "## b", currentLine := "### d",
    reachedEnd := false }

/-- The state `parseHeading` leaves after consuming the level-3 heading of
`deepState`: the task heading `## b` is now the current line. -/
def deepStep : ParserState :=
  { input := ["end"], tasks := [], currTask := {},
    rootHeadingLevel := 1, nextLine := "req: x", currentLine := "## b",
    reachedEnd := false }

/-- A parser state with one completed task whose remaining input produces an
empty-task error. -/
def oneTaskState : ParserState :=
  { input := [], tasks := [partialTask], currTask := {},
    rootHeadingLevel := 1, nextLine := "## b", currentLine := "## b",
    reachedEnd := true }

/-- A parser state whose current line is the attribute `req: a,,b`. -/
def reqState : ParserState :=
  { input := ["end"], tasks := [], currTask := { Name := "t", DependsOn := ["z"] },
    rootHeadingLevel := 1, nextLine := "next", currentLine := "req: a,,b",
    reachedEnd := false }

/-- The state the parse loop reaches from `oneTaskState`: the empty task `b`
was rejected, the previously completed task is still in the list. -/
def oneTaskFinal : ParserState :=
  { input := [], tasks := [partialTask], currTask := { Name := "b" },
    rootHeadingLevel := 1, nextLine := "## b", currentLine := "## b",
    reachedEnd := true }

/-! ## Preservation lemmas: which state components each operation leaves alone -/

theorem scan_currTask (p : ParserState) : ((scan p).2).currTask = p.currTask := by
  unfold scan; split
  · rfl
  · split <;> rfl

theorem scan_tasks (p : ParserState) : ((scan p).2).tasks = p.tasks := by
  unfold scan; split
  · rfl
  · split <;> rfl

theorem parseAltHeading_tasks (p : ParserState) (a : Bool) :
    ((parseAltHeading p a).2).tasks = p.tasks := by
  unfold parseAltHeading; dsimp only
  repeat' split
  all_goals first | rfl | rw [scan_tasks, scan_tasks]

theorem parseHeading_tasks (p : ParserState) (a : Bool) :
    ((parseHeading p a).2).tasks = p.tasks := by
  unfold parseHeading; dsimp only
  split
  · exact parseAltHeading_tasks p a
  · repeat' split
    all_goals first | rfl | rw [scan_tasks]

theorem parseAttribute_tasks (p : ParserState) :
    ((parseAttribute p).2).tasks = p.tasks := by
  unfold parseAttribute
  repeat' split
  all_goals first | rfl | rw [scan_tasks]

theorem codeLoop_tasks (fuel : Nat) :
    ∀ p r, codeLoop fuel p = some r → r.2.tasks = p.tasks := by
  induction fuel with
  | zero => intro p r h; simp [codeLoop] at h
  | succ n ih =>
    intro p r h
    rw [codeLoop] at h
    rcases hs : scan p with ⟨b, p1⟩
    rw [hs] at h
    have hp1 : p1.tasks = p.tasks := by
      have := scan_tasks p; rw [hs] at this; exact this
    cases b
    · simp only at h
      cases h; simpa using hp1
    · simp only at h
      split at h
      · cases h; simpa using hp1
      · split at h
        · rw [ih _ _ h]; simpa using hp1
        · rw [ih _ _ h]; exact hp1

theorem parseCodeBlock_tasks (fuel : Nat) (p : ParserState) :
    ∀ r, parseCodeBlock fuel p = some r → r.2.tasks = p.tasks := by
  intro r h
  unfold parseCodeBlock at h
  split at h
  · cases h; rfl
  · split at h
    · cases h; rfl
    · rcases hc : codeLoop fuel p with _ | ⟨b, p1⟩ <;> rw [hc] at h
      · cases h
      · have hp1 : p1.tasks = p.tasks := codeLoop_tasks fuel p (b, p1) hc
        cases b
        · simp only at h; cases h; exact hp1
        · simp only at h; cases h; rw [scan_tasks]; exact hp1

theorem findTaskHeading_tasks (fuel : Nat) :
    ∀ p r, findTaskHeading fuel p = some r → r.2.tasks = p.tasks := by
  induction fuel with
  | zero => intro p r h; simp [findTaskHeading] at h
  | succ n ih =>
    intro p r h
    rw [findTaskHeading] at h
    rcases hh : parseHeading p true with ⟨⟨tok, level, text⟩, p1⟩
    rw [hh] at h
    dsimp only at h
    have hp1 : p1.tasks = p.tasks := by
      have := parseHeading_tasks p true; rw [hh] at this; exact this
    split at h
    · rcases hs : scan p1 with ⟨b, p2⟩
      rw [hs] at h
      have hp2 : p2.tasks = p1.tasks := by
        have := scan_tasks p1; rw [hs] at this; exact this
      cases b
      · simp only at h; cases h; simpa using hp2.trans hp1
      · simp only at h; rw [ih _ _ h]; exact hp2.trans hp1
    · split at h
      · cases h; exact hp1
      · cases h; exact hp1

theorem parseTaskBody_tasks (fuel : Nat) :
    ∀ p r, parseTaskBody fuel p = some r → r.2.tasks = p.tasks := by
  induction fuel with
  | zero => intro p r h; simp [parseTaskBody] at h
  | succ n ih =>
    intro p r h
    rw [parseTaskBody] at h
    rcases ha : parseAttribute p with ⟨⟨ok, e⟩, p1⟩
    rw [ha] at h
    dsimp only at h
    have hp1 : p1.tasks = p.tasks := by
      have := parseAttribute_tasks p; rw [ha] at this; exact this
    cases ok
    · cases e with
      | some e0 => simp only at h; cases h; exact hp1
      | none =>
        simp only at h
        rcases hc : parseCodeBlock n p1 with _ | ⟨e2, p2⟩ <;> rw [hc] at h
        · cases h
        · have hp2 : p2.tasks = p1.tasks :=
            parseCodeBlock_tasks n p1 (e2, p2) hc
          cases e2 with
          | some e3 => simp only at h; cases h; exact hp2.trans hp1
          | none =>
            simp only at h
            rcases hph : parseHeading p2 false with ⟨⟨tok, level, t⟩, p3⟩
            rw [hph] at h
            dsimp only at h
            have hp3 : p3.tasks = p2.tasks := by
              have := parseHeading_tasks p2 false; rw [hph] at this; exact this
            split at h
            · cases h; exact hp3.trans (hp2.trans hp1)
            · split at h
              · cases h; exact hp3.trans (hp2.trans hp1)
              · set p4 := if trimSpace p3.currentLine != "" then
                    { p3 with currTask :=
                      { p3.currTask with Description := p3.currTask.Description ++ [trimVals p3.currentLine] } }
                  else p3 with hp4def
                have hp4 : p4.tasks = p3.tasks := by
                  rw [hp4def]; split <;> rfl
                rcases hs : scan p4 with ⟨b, p5⟩
                rw [hs] at h
                have hp5 : p5.tasks = p4.tasks := by
                  have := scan_tasks p4; rw [hs] at this; exact this
                cases b
                · simp only at h; cases h
                  exact hp5.trans (hp4.trans (hp3.trans (hp2.trans hp1)))
                · simp only at h; rw [ih _ _ h]
                  exact hp5.trans (hp4.trans (hp3.trans (hp2.trans hp1)))
    · simp only at h
      rw [ih _ _ h]; exact hp1

/-! ## How `parseTask` and the parse loop grow the task list -/

/-- `parseTask` only ever appends tasks that passed the finalization check:
non-empty `Script` or non-empty `DependsOn`. -/
theorem parseTask_extend (fuel : Nat) (p : ParserState) (r : Bool × Option ParseErr)
    (p' : ParserState) (h : parseTask fuel p = some (r, p')) :
    ∃ ts, p'.tasks = p.tasks ++ ts ∧
      ∀ t ∈ ts, t.Script ≠ "" ∨ t.DependsOn ≠ [] := by
  unfold parseTask at h
  dsimp only at h
  rcases hf : findTaskHeading fuel { p with currTask := {} } with _ | ⟨res, p1⟩ <;>
    rw [hf] at h
  · dsimp only at h; cases h
  · have hp1 : p1.tasks = p.tasks :=
      findTaskHeading_tasks fuel { p with currTask := {} } (res, p1) hf
    cases res with
    | fail e => dsimp only at h; cases h; exact ⟨[], by simpa using hp1, by simp⟩
    | sectionDone => dsimp only at h; cases h; exact ⟨[], by simpa using hp1, by simp⟩
    | found hd =>
      dsimp only at h
      rcases hb : parseTaskBody fuel { p1 with currTask := { p1.currTask with Name := hd } }
          with _ | ⟨⟨ok, e⟩, p3⟩ <;> rw [hb] at h
      · dsimp only at h; cases h
      · have hp3 : p3.tasks = p.tasks := by
          have := parseTaskBody_tasks fuel
            { p1 with currTask := { p1.currTask with Name := hd } } ((ok, e), p3) hb
          simpa [hp1] using this
        cases e with
        | some e0 => dsimp only at h; cases h; exact ⟨[], by simpa using hp3, by simp⟩
        | none =>
          dsimp only at h
          split at h
          · cases h; exact ⟨[], by simpa using hp3, by simp⟩
          · cases h
            refine ⟨[p3.currTask], by simpa using hp3, ?_⟩
            intro t ht
            simp only [List.mem_singleton] at ht
            subst ht
            rename_i hval
            rcases Decidable.em (p3.currTask.Script = "") with hs | hs
            · rcases Decidable.em (p3.currTask.DependsOn = []) with hd2 | hd2
              · exact absurd ⟨hs, hd2⟩ hval
              · exact Or.inr hd2
            · exact Or.inl hs

/-- The parse loop only appends finalized tasks: the final state's list is
the entry state's list plus validated tasks, whether or not the loop ends in
an error. -/
theorem parseLoop_extend (fuel : Nat) :
    ∀ p st e, ParseLoop fuel p = some (st, e) →
      ∃ ts, st.tasks = p.tasks ++ ts ∧
        ∀ t ∈ ts, t.Script ≠ "" ∨ t.DependsOn ≠ [] := by
  induction fuel with
  | zero => intro p st e h; simp [ParseLoop] at h
  | succ n ih =>
    intro p st e h
    rw [ParseLoop] at h
    rcases ht : parseTask n p with _ | ⟨⟨ok, e1⟩, p1⟩ <;> rw [ht] at h
    · dsimp only at h; cases h
    · obtain ⟨ts1, hts1, hv1⟩ := parseTask_extend n p (ok, e1) p1 ht
      cases e1 with
      | some e0 =>
        cases ok <;> dsimp only at h <;> cases h <;> exact ⟨ts1, hts1, hv1⟩
      | none =>
        cases ok
        · try dsimp only at h
          cases h; exact ⟨ts1, hts1, hv1⟩
        · try dsimp only at h
          obtain ⟨ts2, hts2, hv2⟩ := ih p1 st e h
          refine ⟨ts1 ++ ts2, ?_, ?_⟩
          · rw [hts2, hts1, List.append_assoc]
          · intro t htm
            rcases List.mem_append.mp htm with hm | hm
            · exact hv1 t hm
            · exact hv2 t hm

/-- The `NewParser` loop never touches the accumulated task list. -/
theorem newParserLoop_tasks (fuel : Nat) :
    ∀ h p q, NewParserLoop fuel h p = some (.ok q) → q.tasks = p.tasks := by
  induction fuel with
  | zero => intro h p q hq; simp [NewParserLoop] at hq
  | succ n ih =>
    intro h p q hq
    rw [NewParserLoop] at hq
    rcases hs : scan p with ⟨b, p1⟩
    rw [hs] at hq
    dsimp only at hq
    have hp1 : p1.tasks = p.tasks := by
      have := scan_tasks p; rw [hs] at this; exact this
    cases b
    · dsimp only at hq; cases hq
    · dsimp only at hq
      rcases hh : parseHeading p1 true with ⟨⟨ok, level, text⟩, p2⟩
      rw [hh] at hq
      dsimp only at hq
      have hp2 : p2.tasks = p1.tasks := by
        have := parseHeading_tasks p1 true; rw [hh] at this; exact this
      split at hq
      · rw [ih _ _ _ hq]; exact hp2.trans hp1
      · cases hq; exact hp2.trans hp1

/-! ## Inversion and stepping lemmas for the heading recognizer and cursor -/

theorem strExt (a b : String) (h : a.data = b.data) : a = b := by
  cases a; cases b; exact congrArg String.mk h

theorem join_cons (a : String) (as : List String) :
    String.join (a :: as) = a ++ String.join as := by
  apply strExt
  simp [String.data_join]

/-- A failed heading recognition returns the zero triple and consumes
nothing. -/
theorem parseAltHeading_not_ok (p : ParserState) (a : Bool)
    (h : (parseAltHeading p a).1.1 = false) :
    parseAltHeading p a = ((false, 0, ""), p) := by
  by_cases h1 : stringOnlyContains (trimSpace p.nextLine) '-' = true
  · exfalso
    unfold parseAltHeading at h
    dsimp only at h
    rw [h1] at h
    cases a <;> simp at h
  · by_cases h2 : stringOnlyContains (trimSpace p.nextLine) '=' = true
    · exfalso
      unfold parseAltHeading at h
      dsimp only at h
      rw [h2] at h
      simp only [Bool.not_eq_true] at h1
      rw [h1] at h
      cases a <;> simp at h
    · unfold parseAltHeading
      dsimp only
      simp only [Bool.not_eq_true] at h1 h2
      rw [h1, h2]
      simp

/-- A failed heading recognition (either form) returns the zero triple and
consumes nothing. -/
theorem parseHeading_not_ok (p : ParserState) (a : Bool)
    (h : (parseHeading p a).1.1 = false) :
    parseHeading p a = ((false, 0, ""), p) := by
  unfold parseHeading at h ⊢
  dsimp only at h ⊢
  by_cases h1 : (parseAltHeading p a).1.1 = true
  · rw [if_pos h1] at h
    rw [h1] at h
    cases h
  · rw [if_neg h1] at h ⊢
    split at h
    · next hc => rw [if_pos hc]
    · next hc =>
      exfalso
      simp [apply_ite] at h

/-- `scan` on a live cursor with buffered input: shift and refill. -/
theorem scan_cons (p : ParserState) (h : p.reachedEnd = false) (x : String)
    (xs : List String) (hi : p.input = x :: xs) :
    scan p = (true, { p with currentLine := p.nextLine, nextLine := x, input := xs }) := by
  simp [scan, h, hi]

/-- `scan` on a live cursor with exhausted input: shift, set the flag, keep
the stale `nextLine`, still report `true`. -/
theorem scan_nil (p : ParserState) (h : p.reachedEnd = false) (hi : p.input = []) :
    scan p = (true, { p with currentLine := p.nextLine, reachedEnd := true }) := by
  simp [scan, h, hi]

/-- The capture loop of the code-block extractor: with the stream ahead
holding non-fence lines `pre` and then a fence, the loop stops at the fence
having appended exactly the non-blank lines of `pre`, each newline-terminated,
in order. -/
theorem codeLoop_capture (pre : List String) :
    ∀ (p : ParserState) (fence : String) (rest : List String) (fuel : Nat),
      p.reachedEnd = false →
      p.nextLine :: p.input = pre ++ fence :: rest →
      (∀ l ∈ pre, isFence l = false) →
      isFence fence = true →
      pre.length + 1 ≤ fuel →
      ∃ p1, codeLoop fuel p = some (true, p1) ∧
        p1.currTask = { p.currTask with Script := p.currTask.Script ++ scriptOf pre } := by
  induction pre with
  | nil =>
    intro p fence rest fuel hre hstream hpre hfence hfuel
    obtain ⟨hnl, hin⟩ : p.nextLine = fence ∧ p.input = rest := by simpa using hstream
    match fuel, hfuel with
    | fuel + 1, _ =>
      rw [codeLoop]
      cases hrest : rest with
      | nil =>
        rw [scan_nil p hre (hin.trans hrest)]
        dsimp only
        rw [hnl, if_pos hfence]
        refine ⟨_, rfl, ?_⟩
        simp [scriptOf, String.join]
      | cons r rs =>
        rw [scan_cons p hre r rs (hin.trans hrest)]
        dsimp only
        rw [hnl, if_pos hfence]
        refine ⟨_, rfl, ?_⟩
        simp [scriptOf, String.join]
  | cons l pre ih =>
    intro p fence rest fuel hre hstream hpre hfence hfuel
    obtain ⟨hnl, hin⟩ : p.nextLine = l ∧ p.input = pre ++ fence :: rest := by
      simpa using hstream
    have hlf : isFence l = false := hpre l (by simp)
    have hpre2 : ∀ x ∈ pre, isFence x = false := fun x hx => hpre x (by simp [hx])
    match fuel, hfuel with
    | fuel + 1, hfuel =>
      have hfuel2 : pre.length + 1 ≤ fuel := by
        simpa [Nat.succ_le_succ_iff] using hfuel
      rw [codeLoop]
      rcases hshape : pre ++ fence :: rest with _ | ⟨hd, tl⟩
      · exact absurd hshape (by simp)
      · rw [scan_cons p hre hd tl (hin.trans hshape)]
        dsimp only
        rw [hnl, if_neg (by simp [hlf] : ¬ isFence l = true)]
        by_cases hbl : (trimSpace l != "") = true
        · rw [if_pos hbl]
          obtain ⟨p1, hloop, hct⟩ := ih { p with currentLine := l, nextLine := hd, input := tl, currTask := { p.currTask with Script := p.currTask.Script ++ l ++ "\n" } } fence rest fuel hre (by dsimp only; rw [hshape]) hpre2 hfence hfuel2
          refine ⟨p1, hloop, ?_⟩
          rw [hct]
          dsimp only
          rw [show scriptOf (l :: pre) = (l ++ "\n") ++ scriptOf pre by
            simp [scriptOf, List.filter_cons, hbl, join_cons]]
          simp [String.append_assoc]
        · rw [if_neg hbl]
          obtain ⟨p1, hloop, hct⟩ := ih { p with currentLine := l, nextLine := hd, input := tl } fence rest fuel hre (by dsimp only; rw [hshape]) hpre2 hfence hfuel2
          refine ⟨p1, hloop, ?_⟩
          rw [hct]
          dsimp only
          rw [show scriptOf (l :: pre) = scriptOf pre by
            simp only [Bool.not_eq_true] at hbl
            simp [scriptOf, List.filter_cons, hbl]]

/-! ## Interchangeability of the two heading forms (C9) -/

/-- Recognizing the marker heading `## build` when the following line is not
an underline-like line: one line is consumed. -/
theorem ph_atx (p : ParserState) (hcur : p.currentLine = "## build")
    (hd : stringOnlyContains (trimSpace p.nextLine) '-' = false)
    (he : stringOnlyContains (trimSpace p.nextLine) '=' = false) :
    parseHeading p true = ((true, 2, "build"), (scan p).2) := by
  unfold parseHeading parseAltHeading
  rw [hcur]
  dsimp only
  rw [hd, he]
  rfl

/-- Recognizing the underline heading `build` / `----`: two lines are
consumed. -/
theorem ph_alt (p : ParserState) (hcur : p.currentLine = "build")
    (hnext : p.nextLine = "----") :
    parseHeading p true = ((true, 2, "build"), (scan (scan p).2).2) := by
  unfold parseHeading parseAltHeading
  rw [hcur, hnext]
  rfl

/-- Task search succeeds immediately on a recognized heading one level below
the root. -/
theorem fth_found (fuel : Nat) (p p1 : ParserState) (txt : String)
    (hph : parseHeading p true = ((true, p1.rootHeadingLevel + 1, txt), p1)) :
    findTaskHeading (fuel + 1) p = some (.found (trimVals txt), p1) := by
  rw [findTaskHeading, hph]
  dsimp only
  rw [if_neg (by simp)]
  rw [if_neg (by omega)]

/-- `parseTask` is determined by the outcome of the task-heading search. -/
theorem parseTask_congr (fuel : Nat) (pA pB : ParserState)
    (r : FindResult × ParserState)
    (hA : findTaskHeading fuel { pA with currTask := {} } = some r)
    (hB : findTaskHeading fuel { pB with currTask := {} } = some r) :
    parseTask fuel pA = parseTask fuel pB := by
  unfold parseTask
  dsimp only
  rw [hA, hB]

/-- The parse loop is determined by `parseTask`. -/
theorem parseLoop_congr (fuel : Nat) (pA pB : ParserState)
    (h : parseTask fuel pA = parseTask fuel pB) :
    ParseLoop (fuel + 1) pA = ParseLoop (fuel + 1) pB := by
  rw [ParseLoop, ParseLoop, h]

/-- `Parse` is determined by the parse loop. -/
theorem parse_congr (fuel : Nat) (pA pB : ParserState)
    (h : ParseLoop fuel pA = ParseLoop fuel pB) :
    Parse fuel pA = Parse fuel pB := by
  unfold Parse
  rw [h]

/-! ## The claims -/

/-- C1 (counterexample): parsing the §8 example document does NOT yield the
claimed task with empty `Description` — the closing fence line at end of
input is appended to the description as an empty string. -/
theorem claim1_counterexample :
    parseDoc exampleDoc "Tasks" ≠
      some ([{ Name := "build", Description := [], Script := "echo hi\n",
               DependsOn := ["test"] }], none) := by decide

/-- C1 (amended): parsing the §8 example document with target heading
`Tasks` succeeds and yields exactly one task with `Name="build"`,
`DependsOn=["test"]`, `Script="echo hi\n"` and `Description=[""]` — a single
empty-string entry arising from the closing fence line at end of input, not
an empty description. -/
theorem claim1_amended : parseDoc exampleDoc "Tasks" = some ([exampleTask], none) := by
  decide

/-- C2 (counterexample): a document whose first task is well-formed and whose
second task is empty makes the parse fail with the empty-task error while
returning the non-empty list holding the first task — not an empty list. -/
theorem claim2_counterexample :
    parseDoc partialDoc "Tasks" = some ([partialTask], some (.emptyTask "b")) ∧
    [partialTask] ≠ ([] : List Task) := ⟨by decide, by decide⟩

/-- C2 (amended): when the parse loop stops — with or without an error — the
returned state's task list is the entry list plus the tasks completed in
between; previously completed tasks are retained, never discarded, so the
caller of a failing parse receives the error together with a possibly
non-empty list. -/
theorem claim2_amended (fuel : Nat) (p st : ParserState) (e : Option ParseErr)
    (h : ParseLoop fuel p = some (st, e)) :
    ∃ ts, st.tasks = p.tasks ++ ts :=
  (parseLoop_extend fuel p st e h).imp fun _ hts => hts.1

/-- C2 (witness): the amended statement applied to a concrete loop run that
fails with an empty-task error while one completed task is in the list. -/
theorem claim2_witness : ∃ ts, oneTaskFinal.tasks = oneTaskState.tasks ++ ts :=
  claim2_amended 5 oneTaskState oneTaskFinal (some (.emptyTask "b")) (by decide)

/-- C3 (counterexample): a task heading whose text trims to the empty string
produces a returned task with empty `Name` and no validation error. -/
theorem claim3_counterexample :
    parseDoc emptyNameDoc "Tasks" = some ([emptyNameTask], none) ∧
    emptyNameTask.Name = "" := ⟨by decide, rfl⟩

/-- C3 (amended): every task contained in a returned task list has a
non-empty `Script` or a non-empty `DependsOn` (the finalization check), and a
violating task is a fatal validation error rather than a silent drop; the
`Name`, however, is not validated and may be empty. -/
theorem claim3_amended (fuel : Nat) (lines : List String) (heading : String)
    (ts : List Task) (e : Option ParseErr)
    (h : parseLines fuel lines heading = some (ts, e)) :
    ∀ t ∈ ts, t.Script ≠ "" ∨ t.DependsOn ≠ [] := by
  unfold parseLines at h
  rcases hn : NewParserLoop fuel heading (initState lines) with _ | r <;> rw [hn] at h
  · cases h
  · cases r with
    | error e2 =>
      dsimp only at h
      cases h
      intro t ht
      simp at ht
    | ok p =>
      dsimp only at h
      unfold Parse at h
      rcases hl : ParseLoop fuel p with _ | ⟨st, e2⟩ <;> rw [hl] at h
      · cases h
      · simp only [Option.map, Option.some.injEq, Prod.mk.injEq] at h
        obtain ⟨h3, _⟩ := h
        subst h3
        obtain ⟨ts2, hts2, hv⟩ := parseLoop_extend fuel p st e2 hl
        have hp0 : p.tasks = [] := by
          have := newParserLoop_tasks fuel heading (initState lines) p hn
          simpa [initState] using this
        intro t ht
        apply hv
        rw [hts2, hp0] at ht
        simpa using ht

/-- C3 (witness): the amended statement applied to the §8 example document. -/
theorem claim3_witness : exampleTask.Script ≠ "" ∨ exampleTask.DependsOn ≠ [] :=
  claim3_amended (defaultFuel (toLines exampleDoc)) (toLines exampleDoc) "Tasks"
    [exampleTask] none (by decide) exampleTask (by simp)

/-- C4 (code bug): on a document that simply ends — without any read error —
while the parser is still searching for a task heading, the parse returns the
wrapped read-failure error.  In this model the stream never reports a read
error (Go `scanner.Err()` is always nil), yet the error is produced, so a
read-failure error is NOT returned only on actual read errors. -/
theorem claim4_bug : parseDoc eofSearchDoc "Tasks" = some ([], some .readFailure) := by
  decide

/-- C5 (counterexample): a task body with two recognized `dir:` attribute
lines parses without any error when the first line's value trims to empty —
the second assignment does not abort the parse. -/
theorem claim5_counterexample :
    parseDoc twoDirDoc "Tasks" = some ([twoDirTask], none) := by decide

/-- C5 (amended): a recognized `dir:`/`directory:` attribute line hit while
the task's `Dir` is already non-empty — even re-assigning the identical
value — fails with the duplicate-directory error naming the task and
consumes nothing (the body loop then aborts the whole parse with it); a
first `dir:` line whose value trims to empty leaves `Dir` empty and does not
arm this check. -/
theorem claim5_amended (p : ParserState) (a rest : String)
    (h1 : cutColon p.currentLine = some (a, rest))
    (h2 : attMap (toLowerStr (trimVals a)) = some .dir)
    (h3 : p.currTask.Dir ≠ "") :
    parseAttribute p = ((false, some (.duplicateDirectory p.currTask.Name)), p) := by
  unfold parseAttribute
  rw [h1]
  dsimp only
  rw [h2]
  dsimp only
  have hb : (p.currTask.Dir != "") = true := by simpa using h3
  rw [hb]
  rfl

/-- C5 (witness): the amended statement applied to a state re-assigning the
identical directory value. -/
theorem claim5_witness :
    parseAttribute dupDirState = ((false, some (.duplicateDirectory "t")), dupDirState) :=
  claim5_amended dupDirState "dir" " x" (by decide) (by decide) (by decide)

/-- C6 (counterexample): a second fenced block opened after a first all-blank
block was parsed for the same task is captured normally — the parse succeeds
with the second block's content as the script, no duplicate-block error. -/
theorem claim6_counterexample :
    parseDoc twoBlockDoc "Tasks" = some ([twoBlockTask], none) := by decide

/-- C6 (amended): a fenced block opened while the task's `Script` is already
non-empty is the fatal duplicate-code-block error naming the task (the body
loop then aborts the whole parse with it); a first block that captured only
blank lines leaves `Script` empty and does not arm this check. -/
theorem claim6_amended (fuel : Nat) (p : ParserState)
    (h1 : isFence p.currentLine = true) (h2 : p.currTask.Script ≠ "") :
    parseCodeBlock fuel p = some (some (.duplicateCodeBlock p.currTask.Name), p) := by
  unfold parseCodeBlock
  rw [h1]
  have hb : (p.currTask.Script != "") = true := by simpa using h2
  rw [hb]
  rfl

/-- C6 (witness): the amended statement applied to a state opening a second
block for a task whose script is non-empty. -/
theorem claim6_witness :
    parseCodeBlock 5 dupBlockState =
      some (some (.duplicateCodeBlock "t"), dupBlockState) :=
  claim6_amended 5 dupBlockState (by decide) (by decide)

/-- C10: recognized list-valued attribute lines keep empty comma-separated
tokens as empty-string entries — between two commas, leading, trailing, and
for a wholly empty right-hand side — in the corresponding list field. -/
theorem claim10_empty_tokens (p : ParserState) :
    (p.currentLine = "req: a,,b" →
       ((parseAttribute p).2).currTask.DependsOn = p.currTask.DependsOn ++ ["a", "", "b"]) ∧
    (p.currentLine = "env:,x," →
       ((parseAttribute p).2).currTask.Env = p.currTask.Env ++ ["", "x", ""]) ∧
    (p.currentLine = "inputs:" →
       ((parseAttribute p).2).currTask.Inputs = p.currTask.Inputs ++ [""]) := by
  refine ⟨?_, ?_, ?_⟩
  · intro h
    unfold parseAttribute
    rw [h, (by decide : cutColon "req: a,,b" = some ("req", " a,,b"))]
    dsimp only
    rw [(by decide : attMap (toLowerStr (trimVals "req")) = some AttributeType.req)]
    dsimp only
    rw [scan_currTask]
    dsimp only
    rw [(by decide : (splitComma " a,,b").map trimVals = ["a", "", "b"])]
  · intro h
    unfold parseAttribute
    rw [h, (by decide : cutColon "env:,x," = some ("env", ",x,"))]
    dsimp only
    rw [(by decide : attMap (toLowerStr (trimVals "env")) = some AttributeType.env)]
    dsimp only
    rw [scan_currTask]
    dsimp only
    rw [(by decide : (splitComma ",x,").map trimVals = ["", "x", ""])]
  · intro h
    unfold parseAttribute
    rw [h, (by decide : cutColon "inputs:" = some ("inputs", ""))]
    dsimp only
    rw [(by decide : attMap (toLowerStr (trimVals "inputs")) = some AttributeType.inp)]
    dsimp only
    rw [scan_currTask]
    dsimp only
    rw [(by decide : (splitComma "").map trimVals = [""])]

/-- C10 (witness): the `req: a,,b` case applied at a concrete state with an
existing dependency. -/
theorem claim10_witness :
    ((parseAttribute reqState).2).currTask.DependsOn = ["z", "a", "", "b"] :=
  (claim10_empty_tokens reqState).1 rfl

/-- C7 (counterexample): in `deepSkipDoc` the task heading `## build` stands
on the line immediately following a skipped level-3 heading, yet no task is
recognized at all — the skip consumed the heading line and one further line,
and the parse ends with the (spurious) read-failure error. -/
theorem claim7_counterexample :
    parseDoc deepSkipDoc "Tasks" = some ([], some .readFailure) := by decide

/-- C7 (amended): during task search a NON-heading current line is indeed
skipped by exactly one `scan` step (first conjunct), so a task heading right
after it is still seen; but a heading deeper than `rootLevel+1` has already
been consumed by `parseHeading` when the skip's additional `scan` runs
(second conjunct), so the line immediately following such a heading is
swallowed as well and a task heading there is NOT recognized. -/
theorem claim7_amended :
    (∀ (fuel : Nat) (p : ParserState),
       (parseHeading p true).1.1 = false →
       (scan p).1 = true →
       findTaskHeading (fuel + 1) p = findTaskHeading fuel (scan p).2) ∧
    (∀ (fuel : Nat) (p p1 : ParserState) (lvl : Nat) (txt : String),
       parseHeading p true = ((true, lvl, txt), p1) →
       p1.rootHeadingLevel + 1 < lvl →
       (scan p1).1 = true →
       findTaskHeading (fuel + 1) p = findTaskHeading fuel (scan p1).2) := by
  constructor
  · intro fuel p h hs
    have hph := parseHeading_not_ok p true h
    rw [findTaskHeading, hph]
    dsimp only
    have hsp : scan p = (true, (scan p).2) := by rw [← hs]
    rw [hsp]
    simp
  · intro fuel p p1 lvl txt hph hlt hs
    rw [findTaskHeading, hph]
    dsimp only
    have hsp : scan p1 = (true, (scan p1).2) := by rw [← hs]
    rw [hsp]
    simp [decide_eq_true hlt]

/-- C7 (witness): both conjuncts applied concretely — a junk line is skipped
one step; a level-3 heading's skip lands two lines further. -/
theorem claim7_witness :
    findTaskHeading 4 junkState = findTaskHeading 3 (scan junkState).2 ∧
    findTaskHeading 4 deepState = findTaskHeading 3 (scan deepStep).2 :=
  ⟨claim7_amended.1 3 junkState (by decide) (by decide),
   claim7_amended.2 3 deepState deepStep 3 "d" (by decide) (by decide) (by decide)⟩

/-- C8: a fenced block whose stream ahead is the non-fence lines `pre`
followed by a closing fence is captured into a previously empty `Script` as
exactly the non-blank lines of `pre`, each verbatim with a trailing newline,
in their original order — the blank lines are absent. -/
theorem claim8_capture (pre : List String) (p : ParserState) (fence : String)
    (rest : List String) (fuel : Nat)
    (hre : p.reachedEnd = false)
    (hcur : isFence p.currentLine = true)
    (hscript : p.currTask.Script = "")
    (hstream : p.nextLine :: p.input = pre ++ fence :: rest)
    (hpre : ∀ l ∈ pre, isFence l = false)
    (hfence : isFence fence = true)
    (hfuel : pre.length + 1 ≤ fuel) :
    ∃ p1, parseCodeBlock fuel p = some (none, p1) ∧
      p1.currTask.Script = scriptOf pre := by
  obtain ⟨p1, hloop, hct⟩ :=
    codeLoop_capture pre p fence rest fuel hre hstream hpre hfence hfuel
  refine ⟨(scan p1).2, ?_, ?_⟩
  · unfold parseCodeBlock
    rw [if_neg (by simp [hcur] : ¬ (!isFence p.currentLine) = true)]
    rw [if_neg (by simp [hscript] : ¬ (p.currTask.Script != "") = true)]
    rw [hloop]
  · rw [scan_currTask, hct]
    dsimp only
    rw [hscript]
    exact String.empty_append _

/-- C8 (witness): the capture statement applied to a concrete block holding
`a`, an empty line, a U+00A0-only line and `b`: the script is the four-line
block minus both blank lines — the ASCII-empty one and the no-break-space
one — i.e. `a\nb\n`. -/
theorem claim8_witness :
    ∃ p1, parseCodeBlock 7 blockState = some (none, p1) ∧
      p1.currTask.Script = "a\nb\n" := by
  obtain ⟨p1, h1, h2⟩ := claim8_capture ["a", "", "\u00A0", "b"] blockState "```" ["z"] 7
    (by decide) (by decide) (by decide) (by decide) (by decide) (by decide) (by decide)
  exact ⟨p1, h1, by rw [h2]; decide⟩

/-- C9 (counterexample): substituting the underline form for the marker form
of a level-2 task heading does NOT always preserve the parse.  When the
heading follows a skipped deeper heading and the body begins with a dash
line, the marker document fails with the read-failure error and no tasks,
while the underline document returns one task (named `----`). -/
theorem claim9_counterexample :
    parseDoc ceMarkerDoc "Tasks" = some ([], some .readFailure) ∧
    parseDoc ceUnderlineDoc "Tasks" = some ([ceUnderlineTask], none) ∧
    parseDoc ceMarkerDoc "Tasks" ≠ parseDoc ceUnderlineDoc "Tasks" :=
  ⟨by decide, by decide, by decide⟩

/-- C9 (amended): the two heading forms are interchangeable when the task
heading directly follows the root heading and the first body line is not
itself underline-like (not all dashes, not all equals signs): for every such
body and every fuel, the parses of `# Tasks / ## build / rest` and
`# Tasks / build / ---- / rest` coincide.  They are not interchangeable over
arbitrary documents (see the counterexample, where the heading follows a
deeper heading that task search skips). -/
theorem claim9_amended (fuel : Nat) (rest : List String)
    (hr : ∀ r0, rest.head? = some r0 →
       stringOnlyContains (trimSpace r0) '-' = false ∧
       stringOnlyContains (trimSpace r0) '=' = false) :
    parseLines fuel ("# Tasks" :: "## build" :: rest) "Tasks" =
    parseLines fuel ("# Tasks" :: "build" :: "----" :: rest) "Tasks" := by
  rcases fuel with _ | _ | n
  · rfl
  · rfl
  · rcases rest with _ | ⟨r0, rs⟩
    · rfl
    · obtain ⟨hd, he⟩ := hr r0 (by simp)
      rcases rs with _ | ⟨r1, rs⟩
      · -- one body line: the heading consume reaches end of input on both sides
        have hA : NewParserLoop (n + 2) "Tasks"
            (initState ["# Tasks", "## build", r0]) =
            some (.ok { input := [], tasks := [], currTask := {},
                        rootHeadingLevel := 1, nextLine := r0,
                        currentLine := "## build", reachedEnd := false }) := rfl
        have hB : NewParserLoop (n + 2) "Tasks"
            (initState ["# Tasks", "build", "----", r0]) =
            some (.ok { input := [r0], tasks := [], currTask := {},
                        rootHeadingLevel := 1, nextLine := "----",
                        currentLine := "build", reachedEnd := false }) := rfl
        have hfA : findTaskHeading (n + 1)
            { input := [], tasks := [], currTask := {}, rootHeadingLevel := 1,
              nextLine := r0, currentLine := "## build", reachedEnd := false } =
            some (.found "build",
              { input := [], tasks := [], currTask := {}, rootHeadingLevel := 1,
                nextLine := r0, currentLine := r0, reachedEnd := true }) :=
          fth_found n _ _ "build" (ph_atx _ rfl hd he)
        have hfB : findTaskHeading (n + 1)
            { input := [r0], tasks := [], currTask := {}, rootHeadingLevel := 1,
              nextLine := "----", currentLine := "build", reachedEnd := false } =
            some (.found "build",
              { input := [], tasks := [], currTask := {}, rootHeadingLevel := 1,
                nextLine := r0, currentLine := r0, reachedEnd := true }) :=
          fth_found n _ _ "build" (ph_alt _ rfl rfl)
        calc parseLines (n + 2) ["# Tasks", "## build", r0] "Tasks"
            = Parse (n + 2)
                { input := [], tasks := [], currTask := {}, rootHeadingLevel := 1,
                  nextLine := r0, currentLine := "## build", reachedEnd := false } := by
              unfold parseLines; rw [hA]
          _ = Parse (n + 2)
                { input := [r0], tasks := [], currTask := {}, rootHeadingLevel := 1,
                  nextLine := "----", currentLine := "build", reachedEnd := false } :=
              parse_congr _ _ _ (parseLoop_congr _ _ _ (parseTask_congr _ _ _ _ hfA hfB))
          _ = parseLines (n + 2) ["# Tasks", "build", "----", r0] "Tasks" := by
              unfold parseLines; rw [hB]
      · -- at least two body lines: the cursor survives the heading consume
        have hA : NewParserLoop (n + 2) "Tasks"
            (initState ("# Tasks" :: "## build" :: r0 :: r1 :: rs)) =
            some (.ok { input := r1 :: rs, tasks := [], currTask := {},
                        rootHeadingLevel := 1, nextLine := r0,
                        currentLine := "## build", reachedEnd := false }) := rfl
        have hB : NewParserLoop (n + 2) "Tasks"
            (initState ("# Tasks" :: "build" :: "----" :: r0 :: r1 :: rs)) =
            some (.ok { input := r0 :: r1 :: rs, tasks := [], currTask := {},
                        rootHeadingLevel := 1, nextLine := "----",
                        currentLine := "build", reachedEnd := false }) := rfl
        have hfA : findTaskHeading (n + 1)
            { input := r1 :: rs, tasks := [], currTask := {}, rootHeadingLevel := 1,
              nextLine := r0, currentLine := "## build", reachedEnd := false } =
            some (.found "build",
              { input := rs, tasks := [], currTask := {}, rootHeadingLevel := 1,
                nextLine := r1, currentLine := r0, reachedEnd := false }) :=
          fth_found n _ _ "build" (ph_atx _ rfl hd he)
        have hfB : findTaskHeading (n + 1)
            { input := r0 :: r1 :: rs, tasks := [], currTask := {}, rootHeadingLevel := 1,
              nextLine := "----", currentLine := "build", reachedEnd := false } =
            some (.found "build",
              { input := rs, tasks := [], currTask := {}, rootHeadingLevel := 1,
                nextLine := r1, currentLine := r0, reachedEnd := false }) :=
          fth_found n _ _ "build" (ph_alt _ rfl rfl)
        calc parseLines (n + 2) ("# Tasks" :: "## build" :: r0 :: r1 :: rs) "Tasks"
            = Parse (n + 2)
                { input := r1 :: rs, tasks := [], currTask := {}, rootHeadingLevel := 1,
                  nextLine := r0, currentLine := "## build", reachedEnd := false } := by
              unfold parseLines; rw [hA]
          _ = Parse (n + 2)
                { input := r0 :: r1 :: rs, tasks := [], currTask := {}, rootHeadingLevel := 1,
                  nextLine := "----", currentLine := "build", reachedEnd := false } :=
              parse_congr _ _ _ (parseLoop_congr _ _ _ (parseTask_congr _ _ _ _ hfA hfB))
          _ = parseLines (n + 2) ("# Tasks" :: "build" :: "----" :: r0 :: r1 :: rs) "Tasks" := by
              unfold parseLines; rw [hB]

/-- C9 (witness): the amended statement applied to a concrete body. -/
theorem claim9_witness :
    parseLines 20 ["# Tasks", "## build", "req: test", "z"] "Tasks" =
    parseLines 20 ["# Tasks", "build", "----", "req: test", "z"] "Tasks" :=
  claim9_amended 20 ["req: test", "z"] (by
    intro r0 h
    simp only [List.head?_cons, Option.some.injEq] at h
    subst h
    exact ⟨by decide, by decide⟩)

end Xc
